import Mathlib

/-
Verification of the policy controller in
`pkg/auth/controller/policy/policy_controller.go` (TKEStack).

The controller is a level-triggered reconciliation loop: watch events pass
through a change filter into a rate-limited delay/dedup work queue; a pool
of workers pops keys and runs `syncItem`, which reads the object from the
informer-backed lister and reports `(requeue, err)`.

We embed the pure decision logic of the controller shallowly:
  * `needsUpdate` is translated directly from the Go function;
  * `enqueue` and the update/delete event handlers are modelled as the list
    of work-queue operations they perform;
  * `syncItem` is parameterized by the lister outcome (the lister is an
    external collaborator) and returns the Go `(bool, error)` pair with
    the error as an `Option String` (`none` = `nil`);
  * the worker body and the `Run` lifecycle are modelled as the sequences
    of observable actions they emit.
-/

namespace PolicyController

/-- Modelled from the spec: the desired-state specification of a tracked
object is an opaque structured value; `reflect.DeepEqual` on it corresponds
to decidable structural equality.  The concrete field layout of
`v1.PolicySpec` is not among the provided sources, so it is represented as
an opaque bag of fields. -/
structure PolicySpec where
  fields : List (String × String)
deriving DecidableEq, Repr

/-- Modelled from the spec: the observed-state status of a tracked object,
mutable bookkeeping that the change filter must ignore. -/
structure PolicyStatus where
  phase : String
deriving DecidableEq, Repr

/-- Modelled from the spec: a tracked object has a stable identity (UID),
a desired-state specification and an observed-state status.  This stands
for `v1.Policy`, whose type definition is not among the provided sources. -/
structure Policy where
  uid : String
  spec : PolicySpec
  status : PolicyStatus
deriving DecidableEq, Repr

/-- `time.Second` in nanoseconds, as in Go's `time` package. -/
def timeSecond : Nat := 1000000000

/-- `policyDeletionGracePeriod = 5 * time.Second` from the source. -/
def policyDeletionGracePeriod : Nat := 5 * timeSecond

/-- Translated from `needsUpdate` in `policy_controller.go`:
returns true when the UIDs differ, otherwise true when the specs are not
deeply equal, otherwise false. -/
def needsUpdate (old new : Policy) : Bool :=
  if old.uid ≠ new.uid then
    true
  else if ¬ (old.spec = new.spec) then
    true
  else
    false

/-- One operation on the rate-limiting work queue, as invoked by the
controller (`Add`, `AddAfter`, `AddRateLimited`, `Forget`, `Done`). -/
inductive QueueOp where
  | add (key : String)
  | addAfter (key : String) (delay : Nat)
  | addRateLimited (key : String)
  | forget (key : String)
  | done (key : String)
deriving DecidableEq, Repr

/-- The earliest time an operation makes its key available for processing,
given the current time `now`.  `addRateLimited`'s delay is decided by the
external rate limiter and `forget`/`done` schedule nothing, so those give
`none`. -/
def scheduleTime (now : Nat) : QueueOp → Option Nat
  | QueueOp.add _ => some now
  | QueueOp.addAfter _ d => some (now + d)
  | QueueOp.addRateLimited _ => none
  | QueueOp.forget _ => none
  | QueueOp.done _ => none

/-- An event payload as seen by the handlers: `asPolicy` records the result
of the Go type assertion `obj.(*v1.Policy)`, `keyResult` records the result
of `controllerutil.KeyFunc(obj)` (an error for malformed object
references).  Both collaborators are external to the file under
verification. -/
structure EventObj where
  asPolicy : Option Policy
  keyResult : Except String String
deriving Repr

/-- Modelled from the spec: key derivation (`controllerutil.KeyFunc`) either
produces the object key or fails for a malformed object reference; the
outcome is recorded in the event object. -/
def keyFunc (obj : EventObj) : Except String String :=
  obj.keyResult

/-- Translated from `Controller.enqueue`: on key-derivation failure the
error is handed to the error handler and nothing is scheduled; otherwise
the key is added via `AddAfter` with `policyDeletionGracePeriod`. -/
def enqueue (obj : EventObj) : List QueueOp :=
  match keyFunc obj with
  | Except.error _ => []
  | Except.ok key => [QueueOp.addAfter key policyDeletionGracePeriod]

/-- Translated from the `UpdateFunc` handler registered in `NewController`:
both payloads are type-asserted to `*v1.Policy`; only when both assertions
succeed and `needsUpdate` holds is the new object enqueued. -/
def handleUpdate (oldObj newObj : EventObj) : List QueueOp :=
  match oldObj.asPolicy, newObj.asPolicy with
  | some old, some cur => if needsUpdate old cur then enqueue newObj else []
  | _, _ => []

/-- Translated from the `DeleteFunc` handler registered in `NewController`:
the object is enqueued unconditionally, with no filter applied. -/
def handleDelete (obj : EventObj) : List QueueOp :=
  enqueue obj

/-- A watch event delivered to the controller's registered handlers
(`AddFunc` is commented out in the source, so only update and delete
exist). -/
inductive Event where
  | update (oldObj newObj : EventObj)
  | delete (obj : EventObj)
deriving Repr

/-- Dispatch of one watch event to the registered handler. -/
def handleEvent : Event → List QueueOp
  | Event.update o n => handleUpdate o n
  | Event.delete o => handleDelete o

/-- Splits a character list at every slash, keeping empty segments. -/
def splitOnSlash : List Char → List (List Char)
  | [] => [[]]
  | c :: rest =>
    let r := splitOnSlash rest
    if c = '/' then [] :: r
    else
      match r with
      | [] => [[c]]
      | g :: gs => (c :: g) :: gs

/-- Modelled from the spec: `cache.SplitMetaNamespaceKey` splits a
`namespace/name` key; a key with no separator is cluster-scoped (empty
namespace); more than one separator is an error.  The helper is part of
the external cache library. -/
def splitMetaNamespaceKey (key : String) : Except String (String × String) :=
  match splitOnSlash key.data with
  | [name] => Except.ok ("", String.mk name)
  | [ns, name] => Except.ok (String.mk ns, String.mk name)
  | _ => Except.error ("unexpected key format: " ++ key)

/-- Outcome of the lister's `Get(name)` call: the object, a not-found
error, or any other error (carrying its message). -/
inductive ListerResult where
  | found (p : Policy)
  | notFound
  | otherError (msg : String)
deriving DecidableEq, Repr

/-- Translated from `Controller.syncItem`: split the key (returning the
error on failure); then fetch from the lister and switch on the error:
not-found logs and returns `(false, nil)`; any other error logs a warning;
the default case logs the policy; all three fall through to
`return false, nil`. -/
def syncItem (lister : String → ListerResult) (key : String) :
    Bool × Option String :=
  match splitMetaNamespaceKey key with
  | Except.error e => (false, some e)
  | Except.ok (_, name) =>
    match lister name with
    | ListerResult.notFound => (false, none)
    | ListerResult.otherError _ => (false, none)
    | ListerResult.found _ => (false, none)

/-- Translated from the body of `workFunc` inside `Controller.worker`, for
one popped item: `none` means `Get` reported shutdown (the worker quits
without touching the queue); otherwise `syncItem` runs and, when it
returned no error and no requeue request, the key is forgotten, else it is
re-added rate-limited; the deferred `Done` runs last in both cases.  The
sync function is abstracted so the dispatch logic is stated for every
`(requeue, err)` result. -/
def workFunc (sync : String → Bool × Option String) (item : Option String) :
    List QueueOp :=
  match item with
  | none => []
  | some key =>
    let r := sync key
    if r.2.isNone && !r.1 then
      [QueueOp.forget key, QueueOp.done key]
    else
      [QueueOp.addRateLimited key, QueueOp.done key]

/-- One worker step of this controller: `workFunc` applied to the
controller's own `syncItem` over its lister. -/
def workerStep (lister : String → ListerResult) (item : Option String) :
    List QueueOp :=
  workFunc (syncItem lister) item

/-- Observable lifecycle actions of `Controller.Run`. -/
inductive RunAction where
  | waitForCacheSync
  | logSyncError
  | startWorker (i : Nat)
  | blockOnStop
  | shutDownQueue
deriving DecidableEq, Repr

/-- Translated from `Controller.Run`: wait for the informer cache to sync,
log (only) on failure, start `workers` workers, block on `stopCh`, and on
return run the deferred `queue.ShutDown()`. -/
def runTrace (workers : Nat) (syncOk : Bool) : List RunAction :=
  RunAction.waitForCacheSync ::
    ((if syncOk then [] else [RunAction.logSyncError]) ++
      ((List.range workers).map RunAction.startWorker ++
        [RunAction.blockOnStop, RunAction.shutDownQueue]))

/-- A concrete spec value shared by the example policies below. -/
def sharedSpec : PolicySpec := ⟨[("action", "get")]⟩

/-- Example policy with UID `uid-a`. -/
def policyA : Policy := ⟨"uid-a", sharedSpec, ⟨"Active"⟩⟩

/-- Example policy with UID `uid-b` and the same spec as `policyA`. -/
def policyB : Policy := ⟨"uid-b", sharedSpec, ⟨"Active"⟩⟩

/-- Event payload wrapping `policyA`, with a successfully derived key. -/
def eventObjA : EventObj := ⟨some policyA, Except.ok "default/p"⟩

/-- Event payload wrapping `policyB`, with a successfully derived key. -/
def eventObjB : EventObj := ⟨some policyB, Except.ok "default/p"⟩

/-- Event payload whose key derivation fails (malformed object
reference). -/
def malformedObj : EventObj := ⟨none, Except.error "object has no meta"⟩

/-- A lister whose `Get` always fails with a non-not-found error. -/
def listerFail : String → ListerResult :=
  fun _ => ListerResult.otherError "connection refused"

/-- A lister whose `Get` always reports not-found. -/
def listerEmpty : String → ListerResult :=
  fun _ => ListerResult.notFound

/-- A lister whose `Get` always returns `policyA`. -/
def listerA : String → ListerResult :=
  fun _ => ListerResult.found policyA

/-- Every operation emitted by `enqueue` is an `AddAfter` with the fixed
grace period. -/
theorem enqueue_ops_addAfter (obj : EventObj) (op : QueueOp)
    (hop : op ∈ enqueue obj) :
    ∃ key, op = QueueOp.addAfter key policyDeletionGracePeriod := by
  unfold enqueue at hop
  cases h : keyFunc obj with
  | error e => rw [h] at hop; simp at hop
  | ok key =>
    rw [h] at hop
    simp only [List.mem_singleton] at hop
    exact ⟨key, hop⟩

/-- Every operation emitted by any registered event handler is an
`AddAfter` with the fixed grace period. -/
theorem handleEvent_ops_addAfter (ev : Event) (op : QueueOp)
    (hop : op ∈ handleEvent ev) :
    ∃ key, op = QueueOp.addAfter key policyDeletionGracePeriod := by
  cases ev with
  | update o n =>
    simp only [handleEvent] at hop
    unfold handleUpdate at hop
    split at hop
    · split at hop
      · exact enqueue_ops_addAfter n op hop
      · simp at hop
    · simp at hop
  | delete o =>
    exact enqueue_ops_addAfter o op hop

/-- C1: `needsUpdate old new` is true exactly when the UIDs differ or the
specs are not deeply equal; in particular it is false whenever UID and
spec agree, even if the status changed. -/
theorem needsUpdate_iff (old new : Policy) :
    (needsUpdate old new = true ↔ (old.uid ≠ new.uid ∨ old.spec ≠ new.spec)) ∧
    (old.uid = new.uid → old.spec = new.spec → needsUpdate old new = false) := by
  constructor
  · by_cases h1 : old.uid = new.uid <;> by_cases h2 : old.spec = new.spec <;>
      simp [needsUpdate, h1, h2]
  · intro h1 h2
    simp [needsUpdate, h1, h2]

/-- Witness for C1 at two concrete policies that differ only in status. -/
theorem needsUpdate_iff_witness :
    needsUpdate ⟨"u1", sharedSpec, ⟨"Active"⟩⟩ ⟨"u1", sharedSpec, ⟨"Terminating"⟩⟩
      = false :=
  (needsUpdate_iff ⟨"u1", sharedSpec, ⟨"Active"⟩⟩
    ⟨"u1", sharedSpec, ⟨"Terminating"⟩⟩).2 rfl rfl

/-- C2 counterexample: with a lister failing with a non-not-found error,
`syncItem` still returns `(false, nil)` — the error is not propagated, so
the claimed `(false, err)` result does not occur. -/
theorem syncItem_otherError_counterexample :
    listerFail "p" = ListerResult.otherError "connection refused" ∧
    syncItem listerFail "default/p" = (false, none) := by
  constructor
  · rfl
  · rfl

/-- C2 (amended): when the key splits but the lister fails with an error
other than not-found, `syncItem` logs a warning and swallows the failure,
returning `(false, nil)`; no error reaches the worker pool and no
rate-limited requeue happens. -/
theorem syncItem_otherError_swallowed (lister : String → ListerResult)
    (key ns name msg : String)
    (hsplit : splitMetaNamespaceKey key = Except.ok (ns, name))
    (hget : lister name = ListerResult.otherError msg) :
    syncItem lister key = (false, none) := by
  simp [syncItem, hsplit, hget]

/-- Witness for the amended C2 at a concrete failing lister. -/
theorem syncItem_otherError_swallowed_witness :
    syncItem listerFail "default/p1" = (false, none) :=
  syncItem_otherError_swallowed listerFail "default/p1" "default" "p1"
    "connection refused" rfl rfl

/-- C3: for every popped key, the worker forgets the key exactly when the
sync result has a nil error and no requeue request, re-adds it
rate-limited in every other case (non-nil error or requeue), and in both
cases the deferred `Done` is the last queue call. -/
theorem worker_dispatch (sync : String → Bool × Option String) (key : String) :
    (((sync key).2 = none ∧ (sync key).1 = false) →
      workFunc sync (some key) = [QueueOp.forget key, QueueOp.done key]) ∧
    (((sync key).2 ≠ none ∨ (sync key).1 = true) →
      workFunc sync (some key) = [QueueOp.addRateLimited key, QueueOp.done key]) ∧
    (workFunc sync (some key)).getLast? = some (QueueOp.done key) := by
  rcases hsk : sync key with ⟨rq, err⟩
  cases rq <;> cases err <;> simp [workFunc, hsk]

/-- Witness for C3: a not-found sync result leads to forget-then-done. -/
theorem worker_dispatch_witness :
    workFunc (syncItem listerEmpty) (some "default/p") =
      [QueueOp.forget "default/p", QueueOp.done "default/p"] :=
  (worker_dispatch (syncItem listerEmpty) "default/p").1 ⟨rfl, rfl⟩

/-- C4: deletion events bypass the change filter (the delete handler is
exactly `enqueue`), and whenever the key derives, the only queue operation
is `AddAfter` with the 5-second grace period, so the key becomes ready no
earlier than `now + policyDeletionGracePeriod` and never at `now`. -/
theorem delete_enqueue_graceperiod (obj : EventObj) (key : String) (now : Nat)
    (h : keyFunc obj = Except.ok key) :
    handleEvent (Event.delete obj) = enqueue obj ∧
    handleEvent (Event.delete obj) =
      [QueueOp.addAfter key policyDeletionGracePeriod] ∧
    ∀ op ∈ handleEvent (Event.delete obj),
      ∃ t, scheduleTime now op = some t ∧
        now + policyDeletionGracePeriod ≤ t ∧ now < t := by
  have he : handleEvent (Event.delete obj) =
      [QueueOp.addAfter key policyDeletionGracePeriod] := by
    simp [handleEvent, handleDelete, enqueue, h]
  refine ⟨rfl, he, ?_⟩
  intro op hop
  rw [he] at hop
  simp only [List.mem_singleton] at hop
  subst hop
  refine ⟨now + policyDeletionGracePeriod, rfl, le_refl _, ?_⟩
  have hpos : 0 < policyDeletionGracePeriod := by decide
  omega

/-- Witness for C4 at a concrete deletion event and `now = 0`. -/
theorem delete_enqueue_graceperiod_witness :
    handleEvent (Event.delete eventObjB) =
      [QueueOp.addAfter "default/p" policyDeletionGracePeriod] :=
  (delete_enqueue_graceperiod eventObjB "default/p" 0 rfl).2.1

/-- C5: when the key splits and the lister reports not-found, `syncItem`
treats the object as already deleted and returns `(false, nil)`: success,
no error, no retry. -/
theorem syncItem_notFound (lister : String → ListerResult)
    (key ns name : String)
    (hsplit : splitMetaNamespaceKey key = Except.ok (ns, name))
    (hget : lister name = ListerResult.notFound) :
    syncItem lister key = (false, none) := by
  simp [syncItem, hsplit, hget]

/-- Witness for C5 at a concrete empty lister. -/
theorem syncItem_notFound_witness :
    syncItem listerEmpty "default/p" = (false, none) :=
  syncItem_notFound listerEmpty "default/p" "default" "p" rfl rfl

/-- C6: even when the initial cache sync fails, `Run` merely logs: the
trace still begins with the sync wait, records the failure, starts every
worker, and ends by blocking on the stop channel and then shutting down
the queue. -/
theorem run_degraded_continues (w i : Nat) (h : i < w) :
    (runTrace w false).head? = some RunAction.waitForCacheSync ∧
    RunAction.logSyncError ∈ runTrace w false ∧
    RunAction.startWorker i ∈ runTrace w false ∧
    ∃ pre, runTrace w false =
      pre ++ [RunAction.blockOnStop, RunAction.shutDownQueue] := by
  refine ⟨rfl, ?_, ?_, ?_⟩
  · simp [runTrace]
  · simp only [runTrace, List.mem_cons, List.mem_append, List.mem_map,
      List.mem_range]
    exact Or.inr (Or.inr (Or.inl ⟨i, h, rfl⟩))
  · refine ⟨RunAction.waitForCacheSync ::
      ([RunAction.logSyncError] ++ (List.range w).map RunAction.startWorker),
      ?_⟩
    simp [runTrace, List.append_assoc]

/-- Witness for C6 with two workers. -/
theorem run_degraded_continues_witness :
    RunAction.logSyncError ∈ runTrace 2 false ∧
    RunAction.startWorker 0 ∈ runTrace 2 false :=
  ⟨(run_degraded_continues 2 0 (by decide)).2.1,
   (run_degraded_continues 2 0 (by decide)).2.2.1⟩

/-- C7: when key derivation fails, `enqueue` logs and returns without
scheduling anything: no queue operation is performed and the event is
dropped, for deletions included. -/
theorem enqueue_keyError_drops (obj : EventObj) (e : String)
    (h : keyFunc obj = Except.error e) :
    enqueue obj = [] ∧ handleEvent (Event.delete obj) = [] := by
  have he : enqueue obj = [] := by simp [enqueue, h]
  exact ⟨he, he⟩

/-- Witness for C7 at a concrete malformed event object. -/
theorem enqueue_keyError_drops_witness :
    enqueue malformedObj = [] :=
  (enqueue_keyError_drops malformedObj "object has no meta" rfl).1

/-- C8 counterexample: an update whose old and new specs coincide but
whose UIDs differ makes the change filter return true and an enqueue
occur, refuting the claim that spec equality alone suppresses it. -/
theorem update_specUnchanged_counterexample :
    policyA.spec = policyB.spec ∧
    needsUpdate policyA policyB = true ∧
    handleEvent (Event.update eventObjA eventObjB) =
      [QueueOp.addAfter "default/p" policyDeletionGracePeriod] := by
  refine ⟨rfl, by decide, ?_⟩
  rfl

/-- C8 (amended): for every update event in which both the UID and the
spec of the old and new object are unchanged, the change filter returns
false and the handler performs no queue operation. -/
theorem update_unchanged_no_enqueue (oldObj newObj : EventObj)
    (old cur : Policy)
    (h1 : oldObj.asPolicy = some old) (h2 : newObj.asPolicy = some cur)
    (hu : old.uid = cur.uid) (hs : old.spec = cur.spec) :
    needsUpdate old cur = false ∧
    handleEvent (Event.update oldObj newObj) = [] := by
  have hf : needsUpdate old cur = false := by simp [needsUpdate, hu, hs]
  refine ⟨hf, ?_⟩
  simp [handleEvent, handleUpdate, h1, h2, hf]

/-- Witness for the amended C8: equal UID and spec, status changed. -/
theorem update_unchanged_no_enqueue_witness :
    handleEvent (Event.update
      ⟨some ⟨"u1", sharedSpec, ⟨"Active"⟩⟩, Except.ok "default/p"⟩
      ⟨some ⟨"u1", sharedSpec, ⟨"Terminating"⟩⟩, Except.ok "default/p"⟩) = [] :=
  (update_unchanged_no_enqueue
    ⟨some ⟨"u1", sharedSpec, ⟨"Active"⟩⟩, Except.ok "default/p"⟩
    ⟨some ⟨"u1", sharedSpec, ⟨"Terminating"⟩⟩, Except.ok "default/p"⟩
    ⟨"u1", sharedSpec, ⟨"Active"⟩⟩ ⟨"u1", sharedSpec, ⟨"Terminating"⟩⟩
    rfl rfl rfl rfl).2

/-- C9: every queue operation produced by any registered event handler —
update- or deletion-triggered — is `AddAfter` with the fixed grace
period; the immediate `Add` path is never invoked, and the scheduled time
is always `now + policyDeletionGracePeriod`. -/
theorem enqueue_always_delayed (ev : Event) (op : QueueOp) (now : Nat)
    (hop : op ∈ handleEvent ev) :
    (∃ key, op = QueueOp.addAfter key policyDeletionGracePeriod) ∧
    (∀ key, op ≠ QueueOp.add key) ∧
    scheduleTime now op = some (now + policyDeletionGracePeriod) := by
  obtain ⟨key, hk⟩ := handleEvent_ops_addAfter ev op hop
  subst hk
  exact ⟨⟨key, rfl⟩, fun k h => by simp at h, rfl⟩

/-- Witness for C9 at a concrete deletion event. -/
theorem enqueue_always_delayed_witness :
    scheduleTime 0
      (QueueOp.addAfter "default/p" policyDeletionGracePeriod) =
      some (0 + policyDeletionGracePeriod) :=
  (enqueue_always_delayed (Event.delete eventObjB)
    (QueueOp.addAfter "default/p" policyDeletionGracePeriod) 0
    (by simp [handleEvent, handleDelete, enqueue, eventObjB, keyFunc])).2.2

/-- C10: `syncItem` never requests a requeue; every key accepted by the
splitter yields exactly `(false, nil)` regardless of the lister outcome;
a non-nil error is returned only when key splitting itself fails. -/
theorem syncItem_never_requeues (lister : String → ListerResult)
    (key : String) :
    (syncItem lister key).1 = false ∧
    (∀ ns name, splitMetaNamespaceKey key = Except.ok (ns, name) →
      syncItem lister key = (false, none)) ∧
    ((syncItem lister key).2 ≠ none →
      ∃ e, splitMetaNamespaceKey key = Except.error e) := by
  cases hs : splitMetaNamespaceKey key with
  | error e => simp [syncItem, hs]
  | ok p =>
    rcases p with ⟨ns, name⟩
    cases hl : lister name <;> simp [syncItem, hs, hl]

/-- Witness for C10 at a lister that finds the object. -/
theorem syncItem_never_requeues_witness :
    syncItem listerA "ns1/p2" = (false, none) :=
  (syncItem_never_requeues listerA "ns1/p2").2.1 "ns1" "p2" rfl

end PolicyController
